import Mathlib

/-!
Verification of the Matrix Rooms Search (mrs) service against its
natural-language specification.

The Go sources are shallowly embedded: Go strings are modelled as lists of
characters (`GoStr`) so every string operation used by the source
(`strings.Split`, `strings.Trim`, `strings.TrimSpace`,
`strings.ReplaceAll`, `strings.Contains`) is an executable translation;
Go maps are association lists; stateful services pass their state
explicitly; external effects (HTTP, DNS, the bleve engine, the bbolt
store) are oracle parameters mirroring the exact decision structure of
the call sites.
-/

namespace Mrs

/-- Go strings, modelled as character lists. -/
abbrev GoStr := List Char

/-- The characters of a Lean string literal, used to write `GoStr` values. -/
def gs (s : String) : GoStr := s.data

/-- Go `strings.Contains(s, string(c))` for a one-character needle. -/
def containsChar (s : GoStr) (c : Char) : Bool := s.contains c

/-- Go `strings.Split(s, string(sep))` for a one-character separator:
splits around every occurrence of the separator, keeping empty segments;
the result is never the empty list. -/
def splitOnChar (sep : Char) : GoStr → List GoStr
  | [] => [[]]
  | c :: rest =>
    if c = sep then [] :: splitOnChar sep rest
    else
      match splitOnChar sep rest with
      | [] => [[c]]
      | r :: rs => (c :: r) :: rs

/-- Go `strings.Trim(s, string(c))` for a one-character cutset: removes
leading and trailing runs of `c`. -/
def trimChar (c : Char) (s : GoStr) : GoStr :=
  ((s.dropWhile (· = c)).reverse.dropWhile (· = c)).reverse

/-- Go `strings.TrimSpace(s)`: removes leading and trailing whitespace. -/
def trimSpace (s : GoStr) : GoStr :=
  ((s.dropWhile Char.isWhitespace).reverse.dropWhile Char.isWhitespace).reverse

/-- Worker for `replaceAll`; the fuel is the length of the scanned string,
and at least one character is consumed per step. -/
def replaceAllFuel (pat rep : GoStr) : Nat → GoStr → GoStr
  | _, [] => []
  | 0, s => s
  | Nat.succ fuel, c :: rest =>
    if pat.isPrefixOf (c :: rest) then
      rep ++ replaceAllFuel pat rep fuel ((c :: rest).drop pat.length)
    else
      c :: replaceAllFuel pat rep fuel rest

/-- Go `strings.ReplaceAll(s, pat, rep)`: replaces leftmost
non-overlapping occurrences, scanning left to right.  The source only
ever calls it with a non-empty pattern (a token containing a colon), so
the empty pattern is guarded off. -/
def replaceAll (s pat rep : GoStr) : GoStr :=
  if pat = [] then s else replaceAllFuel pat rep s.length s

/-! ## Batcher (`repository/batch`, `Batch[T]`)

`Batch.Add` appends under lock and flushes when the buffer reaches the
configured size; `Batch.Flush` invokes the flush function on the current
buffer (even when the buffer is empty) and reallocates the buffer.  The
state carries a ghost trace of every `flushfunc` invocation, tagged with
what triggered it, so that claims counting flushes can be stated. -/

/-- What triggered a `flushfunc` invocation: the size check inside `Add`,
or a direct call of `Flush`. -/
inductive FlushCause where
  | auto
  | manual
deriving DecidableEq, Repr

/-- State of a `Batch[T]`: the buffered items, the configured size, and
the ghost trace of flushes. -/
structure BatchState (T : Type) where
  data : List T
  size : Nat
  flushes : List (FlushCause × List T)
deriving DecidableEq, Repr

/-- `batch.New(size, flushfunc)`: empty buffer of the given size. -/
def batchNew (T : Type) (size : Nat) : BatchState T :=
  { data := [], size := size, flushes := [] }

/-- `Batch.Flush()`: hands the whole buffer to `flushfunc` and resets the
buffer.  The flush function is invoked even when the buffer is empty. -/
def batchFlush {T : Type} (cause : FlushCause) (st : BatchState T) : BatchState T :=
  { st with data := [], flushes := st.flushes ++ [(cause, st.data)] }

/-- `Batch.Add(item)`: append, then flush if the buffer length reached the
configured size. -/
def batchAdd {T : Type} (st : BatchState T) (item : T) : BatchState T :=
  let st' : BatchState T := { st with data := st.data ++ [item] }
  if st'.data.length ≥ st'.size then batchFlush FlushCause.auto st' else st'

/-- Adding a list of items one by one. -/
def batchAddAll {T : Type} (st : BatchState T) (items : List T) : BatchState T :=
  items.foldl batchAdd st

/-! ## Index entries (`model/search.go`) -/

/-- `model.Entry`: the projection of a room into the inverted index.
Fields `Type` and `Alias` of the Go struct are rendered `typ` and
`alias_` (`type` and `alias` are reserved words here). -/
structure Entry where
  id : String
  typ : String
  alias_ : String
  name : String
  topic : String
  avatar : String
  avatarURL : String
  server : String
  members : Nat
  language : String
deriving DecidableEq, Repr

/-- Blocklist capability used by `Entry.IsBlocked` and the crawler:
`ByID` and `ByServer` of `BlocklistService`. -/
structure Blocklist where
  byID : String → Bool
  byServer : String → Bool

/-- `Entry.IsBlocked(block)`: blocked if the id, the alias, or the origin
server matches. -/
def Entry.isBlockedBy (r : Entry) (block : Blocklist) : Bool :=
  if block.byID r.id then true
  else if block.byID r.alias_ then true
  else if block.byServer r.server then true
  else false

/-! ## Indexer service (`services.Index`) and ingest (`services.DataFacade.Ingest`)

The bleve batch keeps one operation per document id (`batch.Index`
upserts into a map and `batch.Size()` is the number of operations), and
the live index keeps one document per id.  Both are modelled as
association lists with upsert. -/

/-- Insert-or-overwrite for an association list (Go map writes). -/
def upsert {κ α : Type} [BEq κ] (l : List (κ × α)) (k : κ) (v : α) : List (κ × α) :=
  if l.any (fun p => p.1 == k) then
    l.map (fun p => if p.1 == k then (k, v) else p)
  else
    l ++ [(k, v)]

/-- Lookup in an association list (Go map reads). -/
def assocFind {κ α : Type} [BEq κ] (l : List (κ × α)) (k : κ) : Option α :=
  (l.find? (fun p => p.1 == k)).map Prod.snd

/-- State of `services.Index`: the reusable in-progress bleve batch and
the live index (documents by id). -/
structure IndexState where
  batch : List (String × Entry)
  index : List (String × Entry)
deriving DecidableEq, Repr

/-- `Index.EmptyIndex()`: swap the live index for a fresh empty one.  The
in-progress batch is untouched. -/
def emptyIndex (st : IndexState) : IndexState :=
  { st with index := [] }

/-- `Index.IndexBatch()`: submit the current batch to the index and reset
the batch. -/
def indexBatch (st : IndexState) : IndexState :=
  { batch := [],
    index := st.batch.foldl (fun ix p => upsert ix p.1 p.2) st.index }

/-- `Index.RoomsBatch(roomID, data)`: when the batch already holds at
least `threshold` (config `Batch.Rooms`) operations, it flushes via
`IndexBatch()` and returns — the incoming `(roomID, data)` is not added;
otherwise the entry is added to the batch. -/
def roomsBatch (threshold : Nat) (roomID : String) (data : Entry) (st : IndexState) : IndexState :=
  if st.batch.length ≥ threshold then indexBatch st
  else { st with batch := upsert st.batch roomID data }

/-- `Index.Len()` pass-through: number of documents in the live index. -/
def indexLen (st : IndexState) : Nat := st.index.length

/-- `model.MatrixRoom`, restricted to the fields the embedded logic
reads.  Parsing effects (`room.Parse`) are modelled as oracles where
needed. -/
structure MatrixRoom where
  id : String
  alias_ : String
  server : String
deriving DecidableEq, Repr

/-- `Matrix.EachRoom(handler)`: iterates all persisted rooms, skipping
(and collecting for removal) the blocked ones; the handler sees exactly
the non-blocked rooms, in iteration order.  This returns the observed
list. -/
def eachRoomObserved (blocked : MatrixRoom → Bool) (rooms : List (String × MatrixRoom)) :
    List (String × MatrixRoom) :=
  rooms.filter (fun r => !blocked r.2)

/-- `DataFacade.Ingest()` after `EmptyIndex()`: every room observed by
`EachRoom` is sent through `RoomsBatch(roomID, room.Entry())`, and one
final `IndexBatch()` is performed.  `entryOf` stands for the
`room.Entry()` projection. -/
def ingest (threshold : Nat) (blocked : MatrixRoom → Bool) (entryOf : MatrixRoom → Entry)
    (rooms : List (String × MatrixRoom)) (st : IndexState) : IndexState :=
  indexBatch
    ((eachRoomObserved blocked rooms).foldl
      (fun s r => roomsBatch threshold r.1 (entryOf r.2) s) st)

/-! ## Search service (`services.Search`) -/

/-- `services.SearchFieldsBoost`: field name → boost.  The Go values are
float64 but integral (100, 10, 10, 5), so they are carried as naturals. -/
def SearchFieldsBoost : List (GoStr × Nat) :=
  [(gs "language", 100), (gs "name", 10), (gs "server", 10), (gs "alias", 5)]

/-- The Go map read `SearchFieldsBoost[field]`: a missing key yields the
zero value 0. -/
def boostOf (field : GoStr) : Nat :=
  (assocFind SearchFieldsBoost field).getD 0

/-- A bleve match or match-phrase query as built by the source: the
matched text, the target field, whether it is a phrase match, and the
boost (`none` when `SetBoost` was never called, i.e. the engine
default). -/
structure MatchQ where
  matched : GoStr
  field : GoStr
  phrase : Bool
  boost : Option Nat
deriving DecidableEq, Repr

/-- A disjunct of the search query: either a single match query or a
boolean query whose must-clauses are match queries (the only shapes the
source constructs). -/
inductive BleveQuery where
  | matchQ (q : MatchQ)
  | booleanMust (must : List MatchQ)
deriving DecidableEq, Repr

/-- The top-level disjunction query returned by `getSearchQuery`. -/
structure DisjunctionQuery where
  disjuncts : List BleveQuery
deriving DecidableEq, Repr

/-- `Search.newMatchQuery(match, field, phrase)`: build a match or
match-phrase query, `SetField(field)`, then
`SetBoost(SearchFieldsBoost[field])` — the boost is always set
explicitly, to the map's zero value 0 for fields outside the map. -/
def newMatchQuery (matched field : GoStr) (phrase : Bool) : MatchQ :=
  { matched := matched, field := field, phrase := phrase, boost := some (boostOf field) }

/-- `Search.getSearchQuery(q, fields)`: trim the residual, use phrase
matches iff it contains a space, build the four field sub-queries, and
append one boolean must-query when any `key:value` fields were
extracted. -/
def getSearchQuery (q0 : GoStr) (fields : List (GoStr × GoStr)) : DisjunctionQuery :=
  let q := trimSpace q0
  let phrase := containsChar q ' '
  let queries : List BleveQuery :=
    [BleveQuery.matchQ (newMatchQuery q (gs "name") phrase),
     BleveQuery.matchQ (newMatchQuery q (gs "alias") phrase),
     BleveQuery.matchQ (newMatchQuery q (gs "topic") phrase),
     BleveQuery.matchQ (newMatchQuery q (gs "server") phrase)]
  let queries :=
    if fields.length > 0 then
      queries ++ [BleveQuery.booleanMust (fields.map (fun p => newMatchQuery p.2 p.1 false))]
    else queries
  ⟨queries⟩

/-- `Search.matchFields(query)`: extract `key:value` tokens.  Without any
colon the query is returned untouched with no fields.  Otherwise every
space-separated token containing a colon is scheduled for removal; a
token splitting (after `TrimSpace`) into at least two colon-separated
segments contributes its first segment mapped to its second (both
trimmed).  Scheduled tokens are then deleted from the query by
`strings.ReplaceAll`, and the query is trimmed. -/
def matchFields (query : GoStr) : GoStr × List (GoStr × GoStr) :=
  if !containsChar query ':' then (query, [])
  else
    let parts := splitOnChar ' ' query
    let step := fun (acc : List GoStr × List (GoStr × GoStr)) (part : GoStr) =>
      if !containsChar part ':' then acc
      else
        let toRemove := acc.1 ++ [part]
        let pair := splitOnChar ':' (trimSpace part)
        if pair.length < 2 then (toRemove, acc.2)
        else (toRemove, upsert acc.2 (trimSpace (pair.headD [])) (trimSpace (pair.getD 1 [])))
    let acc := parts.foldl step ([], [])
    let query := acc.1.foldl (fun q r => replaceAll q r []) query
    (trimSpace query, acc.2)

/-- `Search.Search(query, ...)` up to the query it hands the repository:
`matchFields` then `getSearchQuery`. -/
def searchQueryFor (input : GoStr) : DisjunctionQuery :=
  getSearchQuery (matchFields input).1 (matchFields input).2

/-- The variant of `newMatchQuery` that claim C2 describes: fields listed
in `SearchFieldsBoost` get their boost, every other field keeps the
engine's default boost (no `SetBoost` call). -/
def newMatchQueryPerClaim (matched field : GoStr) (phrase : Bool) : MatchQ :=
  { matched := matched, field := field, phrase := phrase,
    boost := assocFind SearchFieldsBoost field }

/-- The query construction claim C2 describes, differing from the source
only in the boost rule. -/
def getSearchQueryPerClaim (q0 : GoStr) (fields : List (GoStr × GoStr)) : DisjunctionQuery :=
  let q := trimSpace q0
  let phrase := containsChar q ' '
  let queries : List BleveQuery :=
    [BleveQuery.matchQ (newMatchQueryPerClaim q (gs "name") phrase),
     BleveQuery.matchQ (newMatchQueryPerClaim q (gs "alias") phrase),
     BleveQuery.matchQ (newMatchQueryPerClaim q (gs "topic") phrase),
     BleveQuery.matchQ (newMatchQueryPerClaim q (gs "server") phrase)]
  let queries :=
    if fields.length > 0 then
      queries ++ [BleveQuery.booleanMust (fields.map (fun p => newMatchQueryPerClaim p.2 p.1 false))]
    else queries
  ⟨queries⟩

/-- Claim C2's full pipeline on a raw input string. -/
def searchQueryPerClaim (input : GoStr) : DisjunctionQuery :=
  getSearchQueryPerClaim (matchFields input).1 (matchFields input).2

/-! ## Matrix client endpoint resolution (`matrix.Server.getURL` and helpers)

Network effects are oracles: `wellKnown name` is the `m.server` value of
a successful 200 response of `https://<name>/.well-known/matrix/server`
(`none` covers network errors, non-200 statuses and decode failures);
`srvFed`/`srvMatrix name` is the target and port of the first
`_matrix-fed._tcp` / `_matrix._tcp` SRV record (`none` covers lookup
errors and empty record sets). -/

/-- The oracles feeding the resolver. -/
structure ResolutionOracle where
  wellKnown : GoStr → Option GoStr
  srvFed : GoStr → Option (GoStr × Nat)
  srvMatrix : GoStr → Option (GoStr × Nat)

/-- The `host[:port]` split of `parseServerWellKnown`: the first
colon-separated segment is the host, the second is the port when the
split yields exactly two segments, and the port defaults to `8448`
otherwise. -/
def wkHostPort (host : GoStr) : GoStr :=
  let parts := splitOnChar ':' host
  (parts.headD []) ++ ':' :: (if parts.length = 2 then parts.getD 1 [] else gs "8448")

/-- `matrix.Server.parseServerWellKnown`: on a 200 response with a
non-empty `m.server` value, return its `host:port` form. -/
def parseServerWellKnown (o : ResolutionOracle) (serverName : GoStr) : Option GoStr :=
  match o.wellKnown serverName with
  | none => none
  | some host =>
    if host = [] then none
    else some (wkHostPort host)

/-- Trimming only a trailing run of `c`, the reading "trailing dot
trimmed" of claim C3; it agrees with the source's `strings.Trim` on
targets that do not start with the cut character. -/
def trimTrailingChar (c : Char) (s : GoStr) : GoStr :=
  (s.reverse.dropWhile (· = c)).reverse

/-- `matrix.Server.parseSRV`: first record wins; the target is trimmed of
dots (Go `strings.Trim(target, ".")`) and joined with the record port. -/
def parseSRV (lookup : GoStr → Option (GoStr × Nat)) (serverName : GoStr) : Option GoStr :=
  match lookup serverName with
  | none => none
  | some (target, port) => some (trimChar '.' target ++ ':' :: gs (Nat.repr port))

/-- Resolver state: the `surlsCache` URL cache plus a ghost counter of
how many times the well-known/SRV resolution path ran. -/
structure ServerState where
  surlsCache : List (GoStr × GoStr)
  resolutions : Nat
deriving Repr

/-- `matrix.Server.dcrURL` (discover-cache-and-return): store the URL in
the cache and return it.  The LRU `Add` is modelled by prepending:
lookup takes the first match, so a newer entry shadows an older one.
The fire-and-forget discovery hook has no effect on the resolver
state. -/
def dcrURL (serverName url : GoStr) (st : ServerState) : GoStr × ServerState :=
  (url, { st with surlsCache := (serverName, url) :: st.surlsCache })

/-- `matrix.Server.getURL`: answer from `surlsCache` when possible;
otherwise resolve via well-known, then `_matrix-fed._tcp` SRV, then
`_matrix._tcp` SRV, then the fallback `https://<server>:8448` — every
path caching its result via `dcrURL`.  The ghost `resolutions` counter
increments once per cache miss. -/
def getURL (o : ResolutionOracle) (st : ServerState) (serverName : GoStr) : GoStr × ServerState :=
  match assocFind st.surlsCache serverName with
  | some cached => (cached, st)
  | none =>
    let st1 : ServerState := { st with resolutions := st.resolutions + 1 }
    match parseServerWellKnown o serverName with
    | some hp => dcrURL serverName (gs "https://" ++ hp) st1
    | none =>
      match parseSRV o.srvFed serverName with
      | some hp => dcrURL serverName (gs "https://" ++ hp) st1
      | none =>
        match parseSRV o.srvMatrix serverName with
        | some hp => dcrURL serverName (gs "https://" ++ hp) st1
        | none => dcrURL serverName (gs "https://" ++ serverName ++ gs ":8448") st1

/-! ## Media URLs (`services.Matrix.getMediaURLs`) -/

/-- `matrixMediaFallbacks`: the hard-coded fallback media servers. -/
def matrixMediaFallbacks : List String := ["https://matrix-client.matrix.org"]

/-- The result of `DataRepository.GetServer(name)`: the stored URL (empty
when absent) and whether an error occurred. -/
structure GetServerResult where
  url : String
  isErr : Bool

/-- `services.Matrix.getMediaURLs(serverName, mediaID)`: download URLs of
the fallback media servers, plus the URL derived from the server's own
stored base — but, as written, only when `GetServer` returned an error
AND a non-empty URL. -/
def getMediaURLs (store : String → GetServerResult) (serverName mediaID : String) : List String :=
  let urls := matrixMediaFallbacks.map
    (fun serverURL => serverURL ++ "/_matrix/media/v3/download/" ++ serverName ++ "/" ++ mediaID)
  let res := store serverName
  if res.isErr ∧ res.url ≠ "" then
    urls ++ [res.url ++ "/_matrix/media/v3/download/" ++ serverName ++ "/" ++ mediaID]
  else urls

/-! ## Crawler (`services.Matrix.getPublicRooms`, `DiscoverServers`)

`getPublicRoomsPage(name, limit, since)` is an oracle
`name → limit → since → Option RoomsResp`; `none` covers every failure
path of the page fetch (network error, non-200, read or decode failure).
`room.Parse(detector, publicURL)` and the room blocklist check are
oracles too: the claims only assert where they are applied. -/

/-- A decoded `publicRooms` page: `chunk` and `next_batch`. -/
structure RoomsResp where
  chunk : List MatrixRoom
  nextBatch : String
deriving DecidableEq, Repr

/-- The inner chunk loop of `Matrix.getPublicRooms`: elements with an
empty id or matching the blocklist are dropped, everything else is
parsed and enqueued through `AddRoomBatch`, in page order. -/
def processChunk (blocked : MatrixRoom → Bool) (parse : MatrixRoom → MatrixRoom)
    (chunk : List MatrixRoom) : List MatrixRoom :=
  chunk.foldl (fun acc room => if room.id == "" || blocked room then acc else acc ++ [parse room]) []

/-- `Matrix.getPublicRooms(name)`: paginate from `since = ""`.  The
returned flag records that the loop returned within the given fuel; the
list is everything enqueued through `AddRoomBatch`. -/
def getPublicRooms (blocked : MatrixRoom → Bool) (parse : MatrixRoom → MatrixRoom)
    (pages : String → Option RoomsResp) : Nat → String → List MatrixRoom × Bool
  | 0, _ => ([], false)
  | fuel + 1, since =>
    match pages since with
    | none => ([], true)
    | some resp =>
      if resp.chunk = [] then ([], true)
      else
        let added := processChunk blocked parse resp.chunk
        if resp.nextBatch = "" then (added, true)
        else
          let rest := getPublicRooms blocked parse pages fuel resp.nextBatch
          (added ++ rest.1, rest.2)

/-- `Matrix.validateDiscoveredServer(name)`: a limit=1 `publicRooms`
probe; eligible iff the page call returned a response. -/
def validateDiscoveredServer (pageOracle : String → String → String → Option RoomsResp)
    (name : String) : Bool :=
  (pageOracle name "1" "").isSome

/-- `model.MatrixServer`, restricted to the fields the discovery logic
writes; the MSC1929 contact block is carried opaquely. -/
structure MatrixServerRec where
  name : String
  online : Bool
  contacts : Option String
deriving DecidableEq, Repr

/-- The externally visible store effect of processing one server name
during discovery. -/
inductive DiscoverAction where
  | removed
  | skipped
  | persisted (server : MatrixServerRec)
deriving DecidableEq, Repr

/-- `Matrix.discoverServer(name)`: blocked names are removed from the
store; names whose stored URL is non-empty are left untouched; otherwise
a record (online, with best-effort contacts) is built, marked offline
when the validation probe fails, and persisted in every case. -/
def discoverServer (byServer : String → Bool)
    (pageOracle : String → String → String → Option RoomsResp)
    (getServer : String → String) (contacts : String → Option String)
    (name : String) : DiscoverAction :=
  if byServer name then DiscoverAction.removed
  else if getServer name ≠ "" then DiscoverAction.skipped
  else
    let server : MatrixServerRec := { name := name, online := true, contacts := contacts name }
    if !validateDiscoveredServer pageOracle name then
      DiscoverAction.persisted { server with online := false }
    else
      DiscoverAction.persisted server

/-- The loop body of `Matrix.DiscoverServers(workers)` over the merged
server list: blocked names are removed in the loop itself and never
handed to `discoverServer`; every other name is discovered.  Worker-pool
scheduling is irrelevant to the per-name store effect and is dropped. -/
def discoverServers (byServer : String → Bool)
    (pageOracle : String → String → String → Option RoomsResp)
    (getServer : String → String) (contacts : String → Option String)
    (names : List String) : List (String × DiscoverAction) :=
  names.foldl (fun acc name =>
    if byServer name then acc ++ [(name, DiscoverAction.removed)]
    else acc ++ [(name, discoverServer byServer pageOracle getServer contacts name)]) []

/-! ## Cache middleware (`services.Cache.Middleware`) -/

/-- The request data the middleware reads: the method, the URL path and
the `If-Modified-Since` header (empty when absent). -/
structure HTTPRequest where
  method : String
  path : String
  ifModifiedSince : String

/-- The state the middleware reads: the indexing `FinishedAt` timestamp
already rendered through `http.TimeFormat` (RFC1123 with GMT), and the
configured `cache.max_age`. -/
structure CacheState where
  lastModified : String
  maxAge : Nat

/-- What the middleware does before (or instead of) the handler. -/
inductive MiddlewareResult where
  | nextWith (headers : List (String × String))
  | notModified
deriving DecidableEq, Repr

/-- `noncacheablePaths` of `services/cache`. -/
def noncacheablePaths : List String := ["/search", "/_matrix/federation/v1/publicRooms"]

/-- `Cache.Middleware()`: non-GET requests pass through untouched;
non-cacheable paths get `Cache-Control: no-cache` and pass through; a
matching `If-Modified-Since` yields 304 with no body; otherwise the
cacheable headers are set and the handler runs. -/
def cacheMiddleware (st : CacheState) (req : HTTPRequest) : MiddlewareResult :=
  if req.method ≠ "GET" then MiddlewareResult.nextWith []
  else if noncacheablePaths.contains req.path then
    MiddlewareResult.nextWith [("Cache-Control", "no-cache")]
  else if st.lastModified = req.ifModifiedSince then MiddlewareResult.notModified
  else
    MiddlewareResult.nextWith
      [("Cache-Control", "max-age=" ++ Nat.repr st.maxAge ++ ", public"),
       ("CDN-Tag", "mutable"),
       ("Last-Modified", st.lastModified)]

/-! ## Concrete fixtures used by individual claim theorems and witnesses -/

/-- A first room for the C1 failing input. -/
def c1RoomA : MatrixRoom := { id := "!a:x", alias_ := "", server := "x" }

/-- A second room for the C1 failing input. -/
def c1RoomB : MatrixRoom := { id := "!b:x", alias_ := "", server := "x" }

/-- A concrete `room.Entry()` projection for the C1 failing input. -/
def c1EntryOf (r : MatrixRoom) : Entry :=
  { id := r.id, typ := "", alias_ := r.alias_, name := "", topic := "", avatar := "",
    avatarURL := "", server := r.server, members := 0, language := "" }

/-- The room list EachRoom iterates in the C1 failing input. -/
def c1Rooms : List (String × MatrixRoom) := [("!a:x", c1RoomA), ("!b:x", c1RoomB)]

/-- An oracle whose well-known lookup succeeds, for the C3 witness. -/
def c3Oracle : ResolutionOracle :=
  { wellKnown := fun n => if n = gs "example.org" then some (gs "matrix.example.org:443") else none,
    srvFed := fun _ => none,
    srvMatrix := fun _ => none }

/-- An oracle on which every resolution step fails, for the C7 witness:
the fallback URL must still be cached. -/
def c7Oracle : ResolutionOracle :=
  { wellKnown := fun _ => none, srvFed := fun _ => none, srvMatrix := fun _ => none }

/-- Rooms of the two-page C4 witness scenario. -/
def c4Room1 : MatrixRoom := { id := "!r1:x", alias_ := "", server := "x" }

/-- Second room of the C4 witness scenario. -/
def c4Room2 : MatrixRoom := { id := "!r2:x", alias_ := "", server := "x" }

/-- Third room of the C4 witness scenario, on the second page. -/
def c4Room3 : MatrixRoom := { id := "!r3:x", alias_ := "", server := "x" }

/-- The two-page `publicRooms` oracle of the C4 witness scenario. -/
def c4Pages : String → Option RoomsResp := fun since =>
  if since = "" then some { chunk := [c4Room1, c4Room2], nextBatch := "t" }
  else if since = "t" then some { chunk := [c4Room3], nextBatch := "" }
  else none

/-! ## Helper lemmas -/

lemma containsChar_eq_false_iff {s : GoStr} {c : Char} : containsChar s c = false ↔ c ∉ s := by
  simp [containsChar, List.contains]

lemma splitOnChar_of_not_mem {sep : Char} : ∀ {s : GoStr}, sep ∉ s → splitOnChar sep s = [s] := by
  intro s h
  induction s with
  | nil => rfl
  | cons c rest ih =>
    have hc : ¬ c = sep := fun he => h (he ▸ List.mem_cons_self c rest)
    have hr : sep ∉ rest := fun hm => h (List.mem_cons_of_mem c hm)
    simp [splitOnChar, hc, ih hr]

lemma splitOnChar_append {sep : Char} : ∀ {a : GoStr} (b : GoStr), sep ∉ a →
    splitOnChar sep (a ++ sep :: b) = a :: splitOnChar sep b := by
  intro a
  induction a with
  | nil => intro b _; simp [splitOnChar]
  | cons c rest ih =>
    intro b h
    have hc : ¬ c = sep := fun he => h (he ▸ List.mem_cons_self c rest)
    have hr : sep ∉ rest := fun hm => h (List.mem_cons_of_mem c hm)
    simp [splitOnChar, hc, ih b hr]

lemma wkHostPort_no_colon {host : GoStr} (h : containsChar host ':' = false) :
    wkHostPort host = host ++ gs ":8448" := by
  have hm : (':' : Char) ∉ host := containsChar_eq_false_iff.mp h
  simp [wkHostPort, splitOnChar_of_not_mem hm, gs]

lemma wkHostPort_one_colon {h p : GoStr} (hh : containsChar h ':' = false)
    (hp : containsChar p ':' = false) :
    wkHostPort (h ++ ':' :: p) = h ++ ':' :: p := by
  have hmh : (':' : Char) ∉ h := containsChar_eq_false_iff.mp hh
  have hmp : (':' : Char) ∉ p := containsChar_eq_false_iff.mp hp
  simp [wkHostPort, splitOnChar_append p hmh, splitOnChar_of_not_mem hmp]

lemma trimChar_of_head_ne {c : Char} : ∀ {t : GoStr}, t.head? ≠ some c →
    trimChar c t = trimTrailingChar c t := by
  intro t h
  cases t with
  | nil => rfl
  | cons d rest =>
    have hd : ¬ d = c := by intro he; exact h (by simp [he])
    simp [trimChar, trimTrailingChar, List.dropWhile_cons, hd]

/-! ## C1 — indexing after `EmptyIndex(); Ingest()` -/

/-- C1: claim "`Index.Len()` equals the number of non-blocked rooms
observed by `EachRoom`, and every `(roomID, entry)` passed to
`RoomsBatch` is in the index after the final `IndexBatch()`".  The code
contradicts it: with batch threshold 1 and the two non-blocked rooms
`!a:x`, `!b:x`, the ingest run indexes only one room — `RoomsBatch`
flushes a full batch and drops the incoming entry — so `Index.Len() = 1`
while `EachRoom` observed 2 rooms, and `!b:x` is absent. -/
theorem c1_ingest_drops_room_when_batch_full :
    (ingest 1 (fun _ => false) c1EntryOf c1Rooms (emptyIndex { batch := [], index := [] })).index.length = 1
  ∧ assocFind (ingest 1 (fun _ => false) c1EntryOf c1Rooms
      (emptyIndex { batch := [], index := [] })).index "!b:x" = none
  ∧ (eachRoomObserved (fun _ => false) c1Rooms).length = 2
  ∧ ¬ ((ingest 1 (fun _ => false) c1EntryOf c1Rooms (emptyIndex { batch := [], index := [] })).index.length
        = (eachRoomObserved (fun _ => false) c1Rooms).length) := by
  decide

/-! ## C9 — media URL set -/

/-- C9: claim "when the store holds a non-empty resolved base URL for
the server, the media URL set contains the download URL derived from
that server's own base".  The code contradicts it (and its own doc
comment): the condition `err != nil && serverURL != ""` appends the
server's own URL only when `GetServer` *failed*, so a successful lookup
of `https://matrix.example.org` contributes nothing and only the
fallback URL remains. -/
theorem c9_media_urls_drop_own_server :
    getMediaURLs (fun _ => { url := "https://matrix.example.org", isErr := false }) "example.org" "abc"
      = ["https://matrix-client.matrix.org/_matrix/media/v3/download/example.org/abc"]
  ∧ "https://matrix.example.org/_matrix/media/v3/download/example.org/abc"
      ∉ getMediaURLs (fun _ => { url := "https://matrix.example.org", isErr := false }) "example.org" "abc" := by
  decide

/-! ## C10 — `matchFields` edge cases -/

/-- C10 counterexample: the claim states that a bare `:` token is
removed while contributing no field; in fact `strings.Split(":", ":")`
is `["", ""]` of length 2, so the bare colon contributes the mapping
from the empty key to the empty string. -/
theorem c10_counterexample_bare_colon :
    matchFields (gs ":") = (gs "", [(gs "", gs "")])
  ∧ ¬ ((matchFields (gs ":")).2 = []) := by
  decide

/-- C10 amended: colon-containing tokens are removed from the residual
even when not valid `key:value` pairs — `k:` yields `k ↦ ""`, `k:v:w`
keeps only the first two segments (`k ↦ v`) — and a bare `:` is removed
while contributing the empty-key field `"" ↦ ""`.  The spec's own
boundary example `"foss language:EN"` is included. -/
theorem c10_amended_match_fields :
    matchFields (gs "k: foo") = (gs "foo", [(gs "k", gs "")])
  ∧ matchFields (gs "k:v:w foo") = (gs "foo", [(gs "k", gs "v")])
  ∧ matchFields (gs ": foo") = (gs "foo", [(gs "", gs "")])
  ∧ matchFields (gs "foss language:EN") = (gs "foss", [(gs "language", gs "EN")]) := by
  decide

/-! ## C2 — search query construction -/

/-- C2 counterexample: the claim states the `topic` sub-query (and every
field outside the boost map) carries the engine's default boost; the
source always calls `SetBoost(SearchFieldsBoost[field])`, which is the
explicit boost 0 for `topic`.  At input `"x"` the built query differs
from the claim's query exactly there. -/
theorem c2_counterexample_topic_boost :
    searchQueryFor (gs "x") ≠ searchQueryPerClaim (gs "x")
  ∧ (searchQueryFor (gs "x")).disjuncts.getD 2 (BleveQuery.booleanMust [])
      = BleveQuery.matchQ
          { matched := gs "x", field := gs "topic", phrase := false, boost := some 0 } := by
  decide

/-- C2 amended: for every input, the built query is a disjunction of the
four match sub-queries over name, alias, topic, server — phrase matches
iff the trimmed residual contains a space — each with the explicitly set
boost `SearchFieldsBoost[field]` (language=100, name=10, server=10,
alias=5, and the map's zero value 0 for every other field, topic
included); when `key:value` pairs were extracted, one boolean query with
exactly one plain match per pair is appended as a further disjunct. -/
theorem c2_amended_query_construction (s : GoStr) :
    searchQueryFor s
      = ⟨[BleveQuery.matchQ (newMatchQuery (trimSpace (matchFields s).1) (gs "name")
            (containsChar (trimSpace (matchFields s).1) ' ')),
          BleveQuery.matchQ (newMatchQuery (trimSpace (matchFields s).1) (gs "alias")
            (containsChar (trimSpace (matchFields s).1) ' ')),
          BleveQuery.matchQ (newMatchQuery (trimSpace (matchFields s).1) (gs "topic")
            (containsChar (trimSpace (matchFields s).1) ' ')),
          BleveQuery.matchQ (newMatchQuery (trimSpace (matchFields s).1) (gs "server")
            (containsChar (trimSpace (matchFields s).1) ' '))]
          ++ (if (matchFields s).2 = [] then []
              else [BleveQuery.booleanMust
                ((matchFields s).2.map (fun p => newMatchQuery p.2 p.1 false))])⟩
  ∧ boostOf (gs "language") = 100 ∧ boostOf (gs "name") = 10
  ∧ boostOf (gs "server") = 10 ∧ boostOf (gs "alias") = 5
  ∧ (∀ f : GoStr, f ≠ gs "language" → f ≠ gs "name" → f ≠ gs "server" → f ≠ gs "alias" →
      boostOf f = 0) := by
  refine ⟨?_, by decide, by decide, by decide, by decide, ?_⟩
  · cases h : (matchFields s).2 with
    | nil => simp [searchQueryFor, getSearchQuery, h]
    | cons a l => simp [searchQueryFor, getSearchQuery, h]
  · intro f h1 h2 h3 h4
    have e1 : ((gs "language" : GoStr) == f) = false := beq_eq_false_iff_ne.mpr (Ne.symm h1)
    have e2 : ((gs "name" : GoStr) == f) = false := beq_eq_false_iff_ne.mpr (Ne.symm h2)
    have e3 : ((gs "server" : GoStr) == f) = false := beq_eq_false_iff_ne.mpr (Ne.symm h3)
    have e4 : ((gs "alias" : GoStr) == f) = false := beq_eq_false_iff_ne.mpr (Ne.symm h4)
    simp [boostOf, assocFind, SearchFieldsBoost, List.find?, e1, e2, e3, e4]

/-- C2 amended, witnessed at a concrete field outside the boost map:
the `topic` boost the source sets is 0, not the engine default. -/
theorem c2_amended_query_construction_witness : boostOf (gs "topic") = 0 :=
  (c2_amended_query_construction (gs "x")).2.2.2.2.2 (gs "topic")
    (by decide) (by decide) (by decide) (by decide)

/-! ## C6 — batcher flush behavior -/

lemma batchAddAll_append {T : Type} (st : BatchState T) (a b : List T) :
    batchAddAll st (a ++ b) = batchAddAll (batchAddAll st a) b :=
  List.foldl_append _ _ _ _

/-- Filling the remaining space of the buffer exactly triggers one
automatic flush of the whole buffer content and empties the buffer. -/
lemma batchAddAll_fill {T : Type} :
    ∀ (xs : List T) (st : BatchState T), xs ≠ [] → st.data.length + xs.length = st.size →
    batchAddAll st xs
      = { data := [], size := st.size,
          flushes := st.flushes ++ [(FlushCause.auto, st.data ++ xs)] } := by
  intro xs
  induction xs with
  | nil => intro st hne _; exact absurd rfl hne
  | cons x xs ih =>
    intro st _ hlen
    cases xs with
    | nil =>
      have hge : st.size ≤ st.data.length + 1 := by
        simp only [List.length_cons, List.length_nil] at hlen
        omega
      simp [batchAddAll, batchAdd, batchFlush, hge]
    | cons y ys =>
      have hlt : ¬ st.size ≤ st.data.length + 1 := by
        simp only [List.length_cons] at hlen
        omega
      have hstep : batchAdd st x = { st with data := st.data ++ [x] } := by
        simp [batchAdd, hlt]
      have ihr := ih { st with data := st.data ++ [x] } (by simp)
        (by simp only [List.length_append, List.length_cons, List.length_nil] at hlen ⊢; omega)
      calc batchAddAll st (x :: y :: ys)
          = batchAddAll (batchAdd st x) (y :: ys) := rfl
        _ = _ := by rw [hstep, ihr]; simp

/-- C6 counterexample: with size 1, adding the 2 items 10, 20 and then
calling `Flush()` produces two automatic flushes (the second triggered
by the last `Add`, not by the explicit `Flush()` call) plus a third,
empty, manual flush — refuting "the second of those two flushes is the
one caused by the explicit `Flush()` call". -/
theorem c6_counterexample_second_flush_is_automatic :
    (batchFlush FlushCause.manual (batchAddAll (batchNew Nat 1) [10, 20])).flushes
      = [(FlushCause.auto, [10]), (FlushCause.auto, [20]), (FlushCause.manual, [])]
  ∧ ¬ (((batchFlush FlushCause.manual (batchAddAll (batchNew Nat 1) [10, 20])).flushes.filter
        (fun f => !f.2.isEmpty)).map Prod.fst = [FlushCause.auto, FlushCause.manual]) := by
  decide

/-- C6 amended: for a batcher of size n ≥ 1, adding exactly 2n items and
then calling `Flush()` passes every added item to the flush function
exactly once across exactly two non-empty flushes — both triggered
automatically by `Add` when the buffer reaches n — and the explicit
`Flush()` call invokes the flush function a third time with an empty
buffer. -/
theorem c6_amended_two_automatic_flushes {T : Type} (n : Nat) (items : List T)
    (hn : 1 ≤ n) (hlen : items.length = 2 * n) :
    (batchFlush FlushCause.manual (batchAddAll (batchNew T n) items)).flushes
      = [(FlushCause.auto, items.take n), (FlushCause.auto, items.drop n),
         (FlushCause.manual, [])]
  ∧ items.take n ++ items.drop n = items
  ∧ items.take n ≠ [] ∧ items.drop n ≠ [] := by
  have htd := List.take_append_drop n items
  have ht : (items.take n).length = n := by rw [List.length_take]; omega
  have hd : (items.drop n).length = n := by rw [List.length_drop]; omega
  have htne : items.take n ≠ [] := by
    intro h; rw [h] at ht; simp at ht; omega
  have hdne : items.drop n ≠ [] := by
    intro h; rw [h] at hd; simp at hd; omega
  refine ⟨?_, htd, htne, hdne⟩
  have h1 := batchAddAll_fill (items.take n) (batchNew T n) htne (by simp [batchNew, ht])
  simp only [batchNew, List.nil_append] at h1
  have h2 := batchAddAll_fill (items.drop n)
    { data := [], size := n, flushes := [(FlushCause.auto, items.take n)] } hdne (by simp [hd])
  simp only [List.nil_append] at h2
  conv_lhs => rw [← htd, batchAddAll_append]
  simp only [batchNew]
  rw [h1, h2]
  simp [batchFlush]

/-- C6 amended, witnessed at size 2 with items 1, 2, 3, 4. -/
theorem c6_amended_two_automatic_flushes_witness :
    (batchFlush FlushCause.manual (batchAddAll (batchNew Nat 2) [1, 2, 3, 4])).flushes
      = [(FlushCause.auto, List.take 2 [1, 2, 3, 4]), (FlushCause.auto, List.drop 2 [1, 2, 3, 4]),
         (FlushCause.manual, [])] :=
  (c6_amended_two_automatic_flushes 2 [1, 2, 3, 4] (by decide) (by decide)).1

/-! ## C3, C7 — endpoint resolution -/

lemma assocFind_cons_self {α : Type} (l : List (GoStr × α)) (k : GoStr) (v : α) :
    assocFind ((k, v) :: l) k = some v := by
  simp [assocFind, List.find?]

/-- A cached name is answered from the cache with no state change. -/
lemma getURL_cache_hit (o : ResolutionOracle) (st : ServerState) (name url : GoStr)
    (h : assocFind st.surlsCache name = some url) : getURL o st name = (url, st) := by
  simp [getURL, h]

/-- C3: for a server name not in the URL cache, `getURL` tries the
well-known document first (on success `https://` + the `host[:port]`
split, with the port defaulting to 8448 when the `m.server` value
carries no colon and kept when it carries exactly one), then the
`_matrix-fed._tcp` SRV record, then the `_matrix._tcp` SRV record
(first record; its target is trimmed with cutset ".", which on targets
not starting with a dot is exactly the trailing-dot trim), and finally
the fallback `https://<server>:8448` — the first step that succeeds
determines the result. -/
theorem c3_getURL_resolution_order (o : ResolutionOracle) (st : ServerState) (name : GoStr)
    (hmiss : assocFind st.surlsCache name = none) :
    (∀ host, o.wellKnown name = some host → host ≠ [] →
        (getURL o st name).1 = gs "https://" ++ wkHostPort host)
  ∧ (∀ host, containsChar host ':' = false → wkHostPort host = host ++ gs ":8448")
  ∧ (∀ h p, containsChar h ':' = false → containsChar p ':' = false →
        wkHostPort (h ++ ':' :: p) = h ++ ':' :: p)
  ∧ (parseServerWellKnown o name = none → ∀ t prt, o.srvFed name = some (t, prt) →
        (getURL o st name).1 = gs "https://" ++ trimChar '.' t ++ ':' :: gs (Nat.repr prt))
  ∧ (parseServerWellKnown o name = none → parseSRV o.srvFed name = none →
        ∀ t prt, o.srvMatrix name = some (t, prt) →
        (getURL o st name).1 = gs "https://" ++ trimChar '.' t ++ ':' :: gs (Nat.repr prt))
  ∧ (parseServerWellKnown o name = none → parseSRV o.srvFed name = none →
        parseSRV o.srvMatrix name = none →
        (getURL o st name).1 = gs "https://" ++ name ++ gs ":8448")
  ∧ (∀ t : GoStr, t.head? ≠ some '.' → trimChar '.' t = trimTrailingChar '.' t) := by
  refine ⟨?_, fun host h => wkHostPort_no_colon h, fun h p hh hp => wkHostPort_one_colon hh hp,
    ?_, ?_, ?_, fun t ht => trimChar_of_head_ne ht⟩
  · intro host hwk hne
    have hp : parseServerWellKnown o name = some (wkHostPort host) := by
      simp [parseServerWellKnown, hwk, hne]
    simp [getURL, hmiss, hp, dcrURL]
  · intro hwk t prt hsrv
    have hp : parseSRV o.srvFed name = some (trimChar '.' t ++ ':' :: gs (Nat.repr prt)) := by
      simp [parseSRV, hsrv]
    simp [getURL, hmiss, hwk, hp, dcrURL]
  · intro hwk hfed t prt hsrv
    have hp : parseSRV o.srvMatrix name = some (trimChar '.' t ++ ':' :: gs (Nat.repr prt)) := by
      simp [parseSRV, hsrv]
    simp [getURL, hmiss, hwk, hfed, hp, dcrURL]
  · intro hwk hfed hmat
    simp [getURL, hmiss, hwk, hfed, hmat, dcrURL]

/-- C3, witnessed on an oracle whose well-known lookup yields
`matrix.example.org:443`. -/
theorem c3_getURL_resolution_order_witness :
    (getURL c3Oracle { surlsCache := [], resolutions := 0 } (gs "example.org")).1
      = gs "https://" ++ wkHostPort (gs "matrix.example.org:443") :=
  (c3_getURL_resolution_order c3Oracle { surlsCache := [], resolutions := 0 }
      (gs "example.org") (by decide)).1
    (gs "matrix.example.org:443") (by decide) (by decide)

/-- C7: for a name not yet cached, `getURL` performs exactly one
resolution (the ghost counter increases by one), every resolution path
stores its result in the URL cache, and the second call returns the same
URL from the cache with no state change — hence no second resolution. -/
theorem c7_getURL_resolves_once (o : ResolutionOracle) (st : ServerState) (name : GoStr)
    (hmiss : assocFind st.surlsCache name = none) :
    (getURL o st name).2.resolutions = st.resolutions + 1
  ∧ assocFind (getURL o st name).2.surlsCache name = some (getURL o st name).1
  ∧ getURL o (getURL o st name).2 name = ((getURL o st name).1, (getURL o st name).2) := by
  have key : ∀ url st', getURL o st name = (url, st') →
      st'.resolutions = st.resolutions + 1 ∧ assocFind st'.surlsCache name = some url := by
    intro url st' heq
    simp only [getURL, hmiss] at heq
    cases hwk : parseServerWellKnown o name with
    | some hp =>
      rw [hwk] at heq
      simp [dcrURL] at heq
      rcases heq with ⟨h1, h2⟩
      subst h1; subst h2
      exact ⟨rfl, assocFind_cons_self _ _ _⟩
    | none =>
      rw [hwk] at heq
      cases hfed : parseSRV o.srvFed name with
      | some hp =>
        rw [hfed] at heq
        simp [dcrURL] at heq
        rcases heq with ⟨h1, h2⟩
        subst h1; subst h2
        exact ⟨rfl, assocFind_cons_self _ _ _⟩
      | none =>
        rw [hfed] at heq
        cases hmat : parseSRV o.srvMatrix name with
        | some hp =>
          rw [hmat] at heq
          simp [dcrURL] at heq
          rcases heq with ⟨h1, h2⟩
          subst h1; subst h2
          exact ⟨rfl, assocFind_cons_self _ _ _⟩
        | none =>
          rw [hmat] at heq
          simp [dcrURL] at heq
          rcases heq with ⟨h1, h2⟩
          subst h1; subst h2
          exact ⟨rfl, assocFind_cons_self _ _ _⟩
  obtain ⟨hres, hfind⟩ := key (getURL o st name).1 (getURL o st name).2 rfl
  exact ⟨hres, hfind, getURL_cache_hit o _ name _ hfind⟩

/-- C7, witnessed on the all-failing oracle: even the fallback URL is
cached, and the repeated call is answered from the cache. -/
theorem c7_getURL_resolves_once_witness :
    getURL c7Oracle (getURL c7Oracle { surlsCache := [], resolutions := 0 } (gs "a.org")).2
        (gs "a.org")
      = ((getURL c7Oracle { surlsCache := [], resolutions := 0 } (gs "a.org")).1,
         (getURL c7Oracle { surlsCache := [], resolutions := 0 } (gs "a.org")).2) :=
  (c7_getURL_resolves_once c7Oracle { surlsCache := [], resolutions := 0 }
      (gs "a.org") (by decide)).2.2

/-! ## C4 — pagination of one server's public rooms -/

/-- The imperative chunk loop is the filter-then-map of its page. -/
lemma processChunk_eq (blocked : MatrixRoom → Bool) (parse : MatrixRoom → MatrixRoom)
    (chunk : List MatrixRoom) :
    processChunk blocked parse chunk
      = (chunk.filter (fun room => !(room.id == "" || blocked room))).map parse := by
  suffices h : ∀ acc, chunk.foldl
      (fun acc room => if room.id == "" || blocked room then acc else acc ++ [parse room]) acc
      = acc ++ (chunk.filter (fun room => !(room.id == "" || blocked room))).map parse by
    simpa [processChunk] using h []
  induction chunk with
  | nil => intro acc; simp
  | cons r rest ih =>
    intro acc
    simp only [List.foldl_cons]
    cases hb : (r.id == "" || blocked r)
    case false =>
      have hfil : List.filter (fun room => !(room.id == "" || blocked room)) (r :: rest)
          = r :: List.filter (fun room => !(room.id == "" || blocked room)) rest :=
        List.filter_cons_of_pos (by rw [hb]; decide)
      rw [if_neg Bool.false_ne_true, hfil, List.map_cons, ih (acc ++ [parse r]),
        List.append_assoc]
      rfl
    case true =>
      have hfil : List.filter (fun room => !(room.id == "" || blocked room)) (r :: rest)
          = List.filter (fun room => !(room.id == "" || blocked room)) rest :=
        List.filter_cons_of_neg (by rw [hb]; decide)
      rw [if_pos rfl, hfil]
      exact ih acc

/-- C4: in one server's room parse, every chunk element is parsed and
enqueued in page order except those with an empty id or matching the
blocklist, which are dropped; the pagination loop stops exactly when the
page response is absent, its chunk is empty, or its `next_batch` is
empty, and otherwise continues with `since = next_batch`. -/
theorem c4_public_rooms_pagination (blocked : MatrixRoom → Bool)
    (parse : MatrixRoom → MatrixRoom) (pages : String → Option RoomsResp)
    (fuel : Nat) (since : String) :
    (∀ chunk, processChunk blocked parse chunk
        = (chunk.filter (fun room => !(room.id == "" || blocked room))).map parse)
  ∧ (pages since = none → getPublicRooms blocked parse pages (fuel + 1) since = ([], true))
  ∧ (∀ resp, pages since = some resp → resp.chunk = [] →
      getPublicRooms blocked parse pages (fuel + 1) since = ([], true))
  ∧ (∀ resp, pages since = some resp → resp.chunk ≠ [] → resp.nextBatch = "" →
      getPublicRooms blocked parse pages (fuel + 1) since
        = (processChunk blocked parse resp.chunk, true))
  ∧ (∀ resp, pages since = some resp → resp.chunk ≠ [] → resp.nextBatch ≠ "" →
      getPublicRooms blocked parse pages (fuel + 1) since
        = (processChunk blocked parse resp.chunk
            ++ (getPublicRooms blocked parse pages fuel resp.nextBatch).1,
           (getPublicRooms blocked parse pages fuel resp.nextBatch).2)) := by
  refine ⟨processChunk_eq blocked parse, ?_, ?_, ?_, ?_⟩
  · intro h; simp [getPublicRooms, h]
  · intro resp h he; simp [getPublicRooms, h, he]
  · intro resp h hne hnb; simp [getPublicRooms, h, hne, hnb]
  · intro resp h hne hnb; simp [getPublicRooms, h, hne, hnb]

/-- C4, witnessed on the spec's two-page scenario: the first page
continues with `since = "t"`. -/
theorem c4_public_rooms_pagination_witness :
    getPublicRooms (fun _ => false) id c4Pages 2 ""
      = (processChunk (fun _ => false) id [c4Room1, c4Room2]
          ++ (getPublicRooms (fun _ => false) id c4Pages 1 "t").1,
         (getPublicRooms (fun _ => false) id c4Pages 1 "t").2) :=
  (c4_public_rooms_pagination (fun _ => false) id c4Pages 1 "").2.2.2.2
    { chunk := [c4Room1, c4Room2], nextBatch := "t" } (by decide) (by decide) (by decide)

/-! ## C5 — server discovery -/

lemma discoverServers_acc (byServer : String → Bool)
    (pageOracle : String → String → String → Option RoomsResp)
    (getServer : String → String) (contacts : String → Option String) :
    ∀ (names : List String) (acc : List (String × DiscoverAction)),
    names.foldl (fun acc name =>
        if byServer name then acc ++ [(name, DiscoverAction.removed)]
        else acc ++ [(name, discoverServer byServer pageOracle getServer contacts name)]) acc
      = acc ++ names.map (fun name =>
          (name, if byServer name then DiscoverAction.removed
                 else discoverServer byServer pageOracle getServer contacts name)) := by
  intro names
  induction names with
  | nil => intro acc; simp
  | cons n rest ih =>
    intro acc
    cases hb : byServer n <;>
      simp [List.foldl_cons, hb, ih, List.append_assoc]

/-- C5: `DiscoverServers` processes every name — blocklisted names are
removed from the store and never discovered, names with a non-empty
stored URL are left untouched, and every other name gets a record
persisted with `Online = false` exactly when the limit=1 `publicRooms`
validation probe fails. -/
theorem c5_discover_servers (byServer : String → Bool)
    (pageOracle : String → String → String → Option RoomsResp)
    (getServer : String → String) (contacts : String → Option String)
    (names : List String) (name : String) :
    discoverServers byServer pageOracle getServer contacts names
      = names.map (fun n =>
          (n, if byServer n then DiscoverAction.removed
              else discoverServer byServer pageOracle getServer contacts n))
  ∧ (byServer name = true →
      discoverServer byServer pageOracle getServer contacts name = DiscoverAction.removed)
  ∧ (byServer name = false → getServer name ≠ "" →
      discoverServer byServer pageOracle getServer contacts name = DiscoverAction.skipped)
  ∧ (byServer name = false → getServer name = "" →
      discoverServer byServer pageOracle getServer contacts name
        = DiscoverAction.persisted
            { name := name, online := (pageOracle name "1" "").isSome,
              contacts := contacts name }) := by
  refine ⟨?_, ?_, ?_, ?_⟩
  · simpa [discoverServers] using discoverServers_acc byServer pageOracle getServer contacts names []
  · intro hb; simp [discoverServer, hb]
  · intro hb hurl; simp [discoverServer, hb, hurl]
  · intro hb hurl
    cases hv : (pageOracle name "1" "").isSome <;>
      simp [discoverServer, hb, hurl, validateDiscoveredServer, hv]

/-- C5, witnessed on a fresh unblocked server whose probe fails: the
record is still persisted, offline. -/
theorem c5_discover_servers_witness :
    discoverServer (fun _ => false) (fun _ _ _ => none) (fun _ => "") (fun _ => none) "a.example"
      = DiscoverAction.persisted { name := "a.example", online := false, contacts := none } :=
  (c5_discover_servers (fun _ => false) (fun _ _ _ => none) (fun _ => "") (fun _ => none)
      ["a.example"] "a.example").2.2.2 rfl rfl

/-! ## C8 — cache middleware -/

/-- C8: for GET requests, the paths `/search` and
`/_matrix/federation/v1/publicRooms` get `Cache-Control: no-cache` and
are never answered 304; on every other path a matching
`If-Modified-Since` yields 304 with no body, and a non-matching one
yields `Cache-Control: max-age=<cfg>, public`, `CDN-Tag: mutable` and
`Last-Modified` equal to the formatted indexing `FinishedAt`. -/
theorem c8_cache_middleware (st : CacheState) (req : HTTPRequest) (hget : req.method = "GET") :
    (noncacheablePaths.contains req.path = true →
        cacheMiddleware st req = MiddlewareResult.nextWith [("Cache-Control", "no-cache")]
      ∧ cacheMiddleware st req ≠ MiddlewareResult.notModified)
  ∧ (noncacheablePaths.contains req.path = false →
        (req.ifModifiedSince = st.lastModified →
          cacheMiddleware st req = MiddlewareResult.notModified)
      ∧ (req.ifModifiedSince ≠ st.lastModified →
          cacheMiddleware st req
            = MiddlewareResult.nextWith
                [("Cache-Control", "max-age=" ++ Nat.repr st.maxAge ++ ", public"),
                 ("CDN-Tag", "mutable"),
                 ("Last-Modified", st.lastModified)])) := by
  constructor
  · intro hnc
    have hm : req.path ∈ noncacheablePaths := by simpa using hnc
    constructor
    · simp [cacheMiddleware, hget, hm]
    · simp [cacheMiddleware, hget, hm]
  · intro hnc
    have hm : req.path ∉ noncacheablePaths := by simpa using hnc
    constructor
    · intro him
      simp [cacheMiddleware, hget, hm, him]
    · intro him
      simp [cacheMiddleware, hget, hm, Ne.symm him]

/-- C8, witnessed on `GET /search`: no-cache, handler runs. -/
theorem c8_cache_middleware_witness :
    cacheMiddleware { lastModified := "Mon, 02 Jan 2006 15:04:05 GMT", maxAge := 86400 }
        { method := "GET", path := "/search", ifModifiedSince := "" }
      = MiddlewareResult.nextWith [("Cache-Control", "no-cache")] :=
  ((c8_cache_middleware { lastModified := "Mon, 02 Jan 2006 15:04:05 GMT", maxAge := 86400 }
      { method := "GET", path := "/search", ifModifiedSince := "" } rfl).1 (by decide)).1

end Mrs
